import Mathlib

/-!
Verification development for the vote-site repository.

The definitions below are a shallow embedding of the Python source:

* `app/api/voting/vote.py` — the vote-code challenge flow
  (`verify_vote`, `verify_challenge`, `solve_vote`, `submit_vote`,
  `get_vote_outcome`);
* `app/api/anti_abuse.py` — the per-address failure counter and ban
  (`register_failed_ip`, `is_ip_banned`, the ban middleware);
* `app/api/admin/manage_votes.py` / `manage_imports.py` — vote-code
  creation (`add_votecodes`, `upload_votecodes`).

Database rows become Lean structures, SQLAlchemy `select ... first()`
becomes `List.find?` over the table list, ORM mutation plus commit becomes
a functional update of the first matching row (`updateFirst`), and the
three settings rows (`vote_locked`, `vote_public`, `vote_public_tokenless`)
are carried as booleans of the database state (the handlers assume the rows
exist).  Randomly generated tokens and codes are passed in explicitly.
Timestamps are seconds as `Nat`; the Redis cache used by the abuse guard is
a per-address record of failure timestamps, their key expiry, and an
optional ban expiry.  Python float averages are modelled as `ℚ`.
-/

/-- Python `s.startswith(pre)`. -/
def strStartsWith (s pre : String) : Bool :=
  pre.data.isPrefixOf s.data

/-- Python `s.isdigit()` for ASCII strings: non-empty and all digits. -/
def strIsDigit (s : String) : Bool :=
  !s.data.isEmpty && s.data.all Char.isDigit

/-- Python `int(s)` on a digit string. -/
def strToNat (s : String) : Nat :=
  s.data.foldl (fun n c => n * 10 + (c.toNat - 48)) 0

/-- Python `s.upper()` (ASCII). -/
def strUpper (s : String) : String :=
  String.mk (s.data.map Char.toUpper)

/-- Update the first element satisfying `p` (the row SQLAlchemy's
`first()` returned and the handler then mutated and committed). -/
def updateFirst (p : α → Bool) (f : α → α) : List α → List α
  | [] => []
  | a :: as => if p a then f a :: as else a :: updateFirst p f as

/-- Row of the `votecodes` table (`database/models.py`). -/
structure VoteCode where
  id : Nat
  code : String
  used : Bool
  grade : Int
  gender : Option Bool
  continuation_key : Option String
  disabled : Bool
deriving DecidableEq, Repr

/-- Row of the `teachers` table (only the fields the voting flow reads). -/
structure Teacher where
  id : Nat
  disabled : Bool
deriving DecidableEq, Repr

/-- Row of the `votes` table. -/
structure Votes where
  teacher_id : Nat
  overall : Option Int
  understandability : Option Int
  helpfulness : Option Int
  fairness : Option Int
  clarity : Option Int
  homework_amount : Option Int
  exam_difficulty : Option Int
  humor : Option Int
  character : Option Int
  style : Option Int
  ip_address : Option String
deriving DecidableEq, Repr

/-- Pydantic `VoteSubmissionItem` (`api/schemas.py`): `overall` plus nine
optional rating fields; `overall` has default `None`, so it too arrives as
an option and `submit_vote` checks it explicitly. -/
structure VoteSubmissionItem where
  overall : Option Int
  understandability : Option Int
  helpfulness : Option Int
  fairness : Option Int
  clarity : Option Int
  homework_amount : Option Int
  exam_difficulty : Option Int
  humor : Option Int
  character : Option Int
  style : Option Int
deriving DecidableEq, Repr

/-- Database state: the three tables the voting flow touches plus the
three settings switches (rows of the `settings` table). -/
structure DB where
  votecodes : List VoteCode
  teachers : List Teacher
  votes : List Votes
  vote_locked : Bool
  vote_public : Bool
  vote_public_tokenless : Bool
deriving DecidableEq, Repr

/-- Python `vote.continuation_key and not vote.continuation_key.startswith("awaiting")`:
a truthy (present, non-empty) key without the `"awaiting"` prefix. -/
def ckPresentWithoutAwaiting (v : VoteCode) : Bool :=
  match v.continuation_key with
  | none => false
  | some k => !(k == "") && !(strStartsWith k "awaiting")

/-- Outcomes of `verify_vote` (vote.py lines 98-113). -/
inductive VerifyResult where
  | invalidCode
  | codeAlreadyUsed
  | codeAlreadyVerified
  | verified (challenge : String)
deriving DecidableEq, Repr

/-- Row predicate of the `verify_vote` lookup: matching code, not disabled. -/
def codeMatch (vote_code : String) (v : VoteCode) : Bool :=
  v.code == vote_code && !v.disabled

/-- POST `/vote/verify` (vote.py lines 60-113).  `challenge` is the fresh
random token the handler would generate; the third component records
whether `register_failed_ip` was called. -/
def verify_vote (db : DB) (vote_code : String) (challenge : String) :
    VerifyResult × DB × Bool :=
  match db.votecodes.find? (codeMatch vote_code) with
  | none => (.invalidCode, db, true)
  | some v =>
    if v.used then (.codeAlreadyUsed, db, false)
    else if ckPresentWithoutAwaiting v then (.codeAlreadyVerified, db, true)
    else
      (.verified challenge,
        { db with
            votecodes :=
              updateFirst (codeMatch vote_code)
                (fun vc => { vc with continuation_key := some ("awaiting" ++ challenge) })
                db.votecodes },
        false)

/-- Row predicate of the `verify_challenge` lookup (vote.py lines 40-45). -/
def challengeCond (key_value : String) (check_used : Bool) (v : VoteCode) : Bool :=
  v.continuation_key == some key_value && !v.disabled && (!check_used || !v.used)

/-- Helper `verify_challenge` (vote.py lines 19-55): validity of a
challenge, optionally an awaiting continuation; with `awaiting` the
matched row's key is rewritten to the bare challenge.  Returns
(valid, database, recorded a failure). -/
def verify_challenge (db : DB) (challenge : String) (awaiting check_used : Bool) :
    Bool × DB × Bool :=
  if challenge.length < 3 then (false, db, true)
  else
    match db.votecodes.find?
        (challengeCond (if awaiting then "awaiting" ++ challenge else challenge) check_used) with
    | none => (false, db, true)
    | some _ =>
      if awaiting then
        (true,
         { db with
             votecodes :=
               updateFirst
                 (challengeCond (if awaiting then "awaiting" ++ challenge else challenge)
                   check_used)
                 (fun vc => { vc with continuation_key := some challenge }) db.votecodes },
         false)
      else (true, db, false)

/-- POST `/vote/solve` (vote.py lines 118-158): the challenge step is
exactly `verify_challenge` with `awaiting=True` (and `check_used` left at
its default `False`). -/
def solve_vote (db : DB) (challenge : String) : Bool × DB × Bool :=
  verify_challenge db challenge true false

/-- Outcomes of `submit_vote` (vote.py lines 293-358). -/
inductive SubmitResult where
  | invalidChallenge
  | votingLocked
  | invalidTeachers
  | invalidTeacherId (tid : String)
  | missingOverall (tid : String)
  | success
deriving DecidableEq, Repr

/-- Row predicate of the `submit_vote` / `get_vote_outcome` lookup:
continuation key equal to the bare challenge, not disabled. -/
def chMatch (challenge : String) (v : VoteCode) : Bool :=
  v.continuation_key == some challenge && !v.disabled

def findChallengeCode (db : DB) (challenge : String) : Option VoteCode :=
  db.votecodes.find? (chMatch challenge)

/-- Python `[int(tid) for tid in vote_data.keys() if tid.isdigit()]`. -/
def teacherIds (vote_data : List (String × VoteSubmissionItem)) : List Nat :=
  (vote_data.map Prod.fst).filterMap
    (fun tid => if strIsDigit tid then some (strToNat tid) else none)

/-- Python `{t.id for t in <enabled teachers with id in teacher_ids>}`:
the query filtered on id membership and `disabled == False`, collected
into a set (deduplicated). -/
def validTeachers (db : DB) (tids : List Nat) : List Nat :=
  ((db.teachers.filter (fun t => tids.contains t.id && !t.disabled)).map Teacher.id).dedup

/-- One `Votes(**vote_kwargs)` row of the submit loop: `teacher_id` plus
every rating field present in the submission; `ip_address` is never part
of `vote_kwargs`, so the column keeps its `None` default. -/
def buildRow (tid : Nat) (s : VoteSubmissionItem) : Votes :=
  { teacher_id := tid
    overall := s.overall
    understandability := s.understandability
    helpfulness := s.helpfulness
    fairness := s.fairness
    clarity := s.clarity
    homework_amount := s.homework_amount
    exam_difficulty := s.exam_difficulty
    humor := s.humor
    character := s.character
    style := s.style
    ip_address := none }

/-- The per-entry loop of `submit_vote` (vote.py lines 324-345): a
non-digit key or a missing `overall` aborts with the corresponding error
(the session is rolled back), otherwise one row per entry is staged. -/
def buildRows : List (String × VoteSubmissionItem) → Except SubmitResult (List Votes)
  | [] => .ok []
  | (tid, s) :: rest =>
    if !(strIsDigit tid) then .error (.invalidTeacherId tid)
    else if s.overall == none then .error (.missingOverall tid)
    else
      match buildRows rest with
      | .error e => .error e
      | .ok rs => .ok (buildRow (strToNat tid) s :: rs)

def setUsed (v : VoteCode) : VoteCode := { v with used := true }

/-- POST `/vote/submit` (vote.py lines 250-358).  On success the staged
rows and the `used` flip commit together; every error path leaves the
database exactly as it was (nothing was committed). -/
def submit_vote (db : DB) (challenge : String)
    (vote_data : List (String × VoteSubmissionItem)) : SubmitResult × DB :=
  match findChallengeCode db challenge with
  | none => (.invalidChallenge, db)
  | some v =>
    if v.used || challenge.length < 3 then (.invalidChallenge, db)
    else if db.vote_locked then (.votingLocked, db)
    else
      if (validTeachers db (teacherIds vote_data)).length ≠ (teacherIds vote_data).length then
        (.invalidTeachers, db)
      else
        match buildRows vote_data with
        | .error e => (e, db)
        | .ok rows =>
          (.success,
           { db with
               votes := db.votes ++ rows
               votecodes := updateFirst (chMatch challenge) setUsed db.votecodes })

/-- Per-field averages of `get_vote_outcome` (vote.py lines 431-443);
Python floats are modelled as rationals. -/
structure VoteAverages where
  overall : Option ℚ
  understandability : Option ℚ
  helpfulness : Option ℚ
  fairness : Option ℚ
  clarity : Option ℚ
  homework_amount : Option ℚ
  exam_difficulty : Option ℚ
  humor : Option ℚ
  character : Option ℚ
  style : Option ℚ
deriving DecidableEq, Repr

/-- Python `sum(values)/len(values)` over the non-null samples of one
field, `None` when there are no samples. -/
def fieldMean (vs : List (Option Int)) : Option ℚ :=
  let xs := vs.filterMap id
  if xs.isEmpty then none
  else some ((xs.map (fun i => (i : ℚ))).sum / (xs.length : ℚ))

/-- The aggregation loop of `get_vote_outcome`: per-field means over the
teacher's rows, every field `None` when the teacher has no rows. -/
def computeAverages (vs : List Votes) : VoteAverages :=
  if vs.isEmpty then
    ⟨none, none, none, none, none, none, none, none, none, none⟩
  else
    { overall := fieldMean (vs.map Votes.overall)
      understandability := fieldMean (vs.map Votes.understandability)
      helpfulness := fieldMean (vs.map Votes.helpfulness)
      fairness := fieldMean (vs.map Votes.fairness)
      clarity := fieldMean (vs.map Votes.clarity)
      homework_amount := fieldMean (vs.map Votes.homework_amount)
      exam_difficulty := fieldMean (vs.map Votes.exam_difficulty)
      humor := fieldMean (vs.map Votes.humor)
      character := fieldMean (vs.map Votes.character)
      style := fieldMean (vs.map Votes.style) }

/-- Outcomes of `get_vote_outcome` (vote.py lines 389-444). -/
inductive OutcomeResult where
  | invalidChallenge
  | notVoted
  | notYetPublic
  | teacherNotFound
  | outcome (a : VoteAverages)
deriving DecidableEq, Repr

/-- Tail of `get_vote_outcome` after the token gate (vote.py lines
412-444): the `vote_public` switch, then the teacher lookup, then the
aggregation. -/
def outcomeAfterGate (db : DB) (teacher_id : Nat) : OutcomeResult × DB × Bool :=
  if !db.vote_public then (.notYetPublic, db, false)
  else
    match db.teachers.find? (fun t => t.id == teacher_id && !t.disabled) with
    | none => (.teacherNotFound, db, false)
    | some _ =>
      (.outcome (computeAverages (db.votes.filter (fun v => v.teacher_id == teacher_id))),
       db, false)

/-- GET `/get_vote_outcome` (vote.py lines 389-444).  The third component
records whether `register_failed_ip` was called. -/
def get_vote_outcome (db : DB) (teacher_id : Nat) (challenge : String) :
    OutcomeResult × DB × Bool :=
  if !db.vote_public_tokenless then
    match findChallengeCode db challenge with
    | none => (.invalidChallenge, db, true)
    | some v =>
      if challenge == "" || challenge.length < 3 then (.invalidChallenge, db, true)
      else if !v.used && !db.vote_locked then (.notVoted, db, false)
      else outcomeAfterGate db teacher_id
  else outcomeAfterGate db teacher_id

/-- Per-address abuse record held in Redis (`api/anti_abuse.py`):
the `failed_ip:<ip>` list of failure timestamps with its key expiry, and
the optional `banned_ip:<ip>` expiry.  Times are seconds as `Nat`. -/
structure AbuseState where
  failures : List Nat
  failExpiry : Nat
  ban : Option Nat
deriving DecidableEq, Repr

/-- `BAN_DURATION = timedelta(hours=48)` in seconds. -/
def banDurationSecs : Nat := 172800

/-- `MAX_FAILED_ATTEMPTS` default. -/
def maxFailedAttempts : Nat := 10

/-- The failure list Redis still holds at `now`: the key vanishes once its
expiry has passed. -/
def liveFailures (st : AbuseState) (now : Nat) : List Nat :=
  if now < st.failExpiry then st.failures else []

/-- `register_failed_ip` (anti_abuse.py lines 26-40): rpush a timestamp,
reset the key's 48-hour expiry, and when the retained count reaches the
threshold set the ban to `now + 48h`, delete the failure list and return
`True`. -/
def register_failed_ip (st : AbuseState) (now : Nat) : Bool × AbuseState :=
  let fs := liveFailures st now ++ [now]
  if maxFailedAttempts ≤ fs.length then
    (true, { failures := [], failExpiry := now + banDurationSecs,
             ban := some (now + banDurationSecs) })
  else
    (false, { failures := fs, failExpiry := now + banDurationSecs, ban := st.ban })

/-- `is_ip_banned` (anti_abuse.py lines 16-24): a live ban returns
`(True, expiry - now)`; an expired ban record is lazily deleted. -/
def is_ip_banned (st : AbuseState) (now : Nat) : (Bool × Option Nat) × AbuseState :=
  match st.ban with
  | some b =>
    if now < b then ((true, some (b - now)), st)
    else ((false, none), { st with ban := none })
  | none => ((false, none), st)

/-- Iterate `register_failed_ip` `k` times at one instant (a burst of
failures from one address). -/
def regIter (now : Nat) : Nat → AbuseState → AbuseState
  | 0, st => st
  | k + 1, st => regIter now k (register_failed_ip st now).2

/-- Request context the abuse layer reads: the direct peer address and the
optional `X-Forwarded-For` header. -/
structure HttpRequest where
  clientHost : String
  xForwardedFor : Option String
deriving DecidableEq, Repr

/-- Address `ban_middleware` checks (anti_abuse.py line 45):
`request.headers.get("X-Forwarded-For") or request.client.host` — the
header when present and non-empty, else the peer address. -/
def middlewareBanKey (req : HttpRequest) : String :=
  match req.xForwardedFor with
  | some s => if s == "" then req.clientHost else s
  | none => req.clientHost

/-- Address every voting-flow `register_failed_ip(...)` call uses:
always `request.client.host`. -/
def failureKey (req : HttpRequest) : String :=
  req.clientHost

/-- Whether `ban_middleware` rejects the request, over a per-address store
of abuse records. -/
def banMiddlewareBlocks (states : String → AbuseState) (now : Nat)
    (req : HttpRequest) : Bool :=
  (is_ip_banned (states (middlewareBanKey req)) now).1.1

/-- Python `string.ascii_letters + string.digits`: the alphabet both
generated vote codes and challenge tokens draw from. -/
def codeAlphabet : List Char :=
  "abcdefghijklmnopqrstuvwxyzABCDEFGHIJKLMNOPQRSTUVWXYZ0123456789".data

/-- One generated vote code:
`''.join(random.SystemRandom().choice(alphabet) for _ in range(8))`, the
random draws supplied as indices into the alphabet. -/
def genCode (picks : List Nat) : String :=
  String.mk ((List.range 8).map (fun j => codeAlphabet.getD (picks.getD j 0 % 62) 'a'))

/-- The generate-until-unused loop: draw a code, retry while it already
exists.  The supply of draws bounds the retries (`fuel`); `upload_votecodes`
uses it with `fuel = 30`, `add_votecodes` with the whole supply. -/
def pickFreshCode (existing : List String) :
    Nat → List (List Nat) → Option (String × List (List Nat))
  | 0, _ => none
  | _ + 1, [] => none
  | fuel + 1, p :: rest =>
    if existing.contains (genCode p) then pickFreshCode existing fuel rest
    else some (genCode p, rest)

/-- The generation loop of `add_votecodes` (manage_votes.py lines 58-67):
`amount` fresh codes, each checked against the table (which, through the
session's autoflush, already holds the codes staged earlier in the batch). -/
def genCodes (existing : List String) : Nat → List (List Nat) → Option (List String)
  | 0, _ => some []
  | n + 1, picks =>
    match pickFreshCode existing picks.length picks with
    | none => none
    | some (c, rest) => (genCodes (existing ++ [c]) n rest).map (fun cs => c :: cs)

/-- Outcomes of `add_votecodes` (manage_votes.py lines 15-70).
`outOfRandomness` is a model artefact: the supply of random draws ran out
(the Python loop would keep drawing). -/
inductive AddCodesResult where
  | badAmount
  | badGrade
  | codeWithMultiple
  | outOfRandomness
  | ok (inserted : List String)
deriving DecidableEq, Repr

/-- Python truthiness of the optional `code` query parameter. -/
def codeTruthy : Option String → Bool
  | none => false
  | some s => !(s == "")

/-- POST `/add_votecodes` (manage_votes.py lines 15-70): parameter checks,
then either the custom code as given (no length check) or `amount`
generated 8-character codes. -/
def add_votecodes (existing : List String) (amount : Int) (grade : Int)
    (code : Option String) (picks : List (List Nat)) : AddCodesResult :=
  if amount ≤ 0 || 1000 < amount then .badAmount
  else if grade < 0 || 12 < grade then .badGrade
  else if codeTruthy code && amount ≠ 1 then .codeWithMultiple
  else if codeTruthy code then .ok [code.getD ""]
  else
    match genCodes existing amount.toNat picks with
    | none => .outOfRandomness
    | some cs => .ok cs

/-- One row of the vote-code CSV (`upload_votecodes` required columns). -/
structure CsvRow where
  code : String
  grade : String
  gender : String
  disabled : String
deriving DecidableEq, Repr

/-- Outcomes of the `upload_votecodes` row loop (manage_imports.py lines
30-64).  `genFailed` is the "couldn't find a viable code in 30 tries"
error. -/
inductive UploadResult where
  | emptyField
  | badGrade
  | badGender
  | shortCode
  | duplicate (c : String)
  | genFailed
  | ok (inserted : List String)
deriving DecidableEq, Repr

/-- The row loop of POST `/admin/upload/votecodes` (manage_imports.py
lines 30-64): field checks, the minimum-4 code length check, duplicate
detection, optional generation (30 tries), and the staged inserts. -/
def uploadRows (existing : List String) (gen : Bool) (picks : List (List Nat)) :
    List CsvRow → UploadResult
  | [] => .ok []
  | row :: rest =>
    if (row.code == "" && !gen) || row.grade == "" then .emptyField
    else if !(strIsDigit row.grade)
        || !(decide (0 < strToNat row.grade) && decide (strToNat row.grade ≤ 12)) then
      .badGrade
    else if !(row.gender == "")
        && !(["TRUE", "FALSE", "0", "1"].contains (strUpper row.gender)) then
      .badGender
    else if !(gen && row.code == "") && row.code.length < 4 then .shortCode
    else
      if (existing.contains row.code || row.code == "") && !gen then .duplicate row.code
      else if existing.contains row.code || row.code == "" then
        match pickFreshCode existing 30 picks with
        | none => .genFailed
        | some (c, rest') =>
          match uploadRows (existing ++ [c]) gen rest' rest with
          | .ok cs => .ok (c :: cs)
          | e => e
      else
        match uploadRows (existing ++ [row.code]) gen picks rest with
        | .ok cs => .ok (row.code :: cs)
        | e => e

/-- Read phase of `verify_vote` under concurrency: the row snapshot the
handler holds after its checks pass (vote.py lines 94-108).  Nothing is
written yet. -/
def verifyRead (db : DB) (vote_code : String) : Option VoteCode :=
  match db.votecodes.find? (codeMatch vote_code) with
  | none => none
  | some v =>
    if v.used then none
    else if ckPresentWithoutAwaiting v then none
    else some v

/-- Write phase of `verify_vote` under concurrency: the commit emits
`UPDATE votecodes SET continuation_key = 'awaiting'+challenge WHERE id = ?`
— keyed on the row id alone, not conditioned on the key's previous value
(vote.py lines 109-111). -/
def verifyWrite (db : DB) (v : VoteCode) (challenge : String) : DB :=
  let vcs := updateFirst (fun vc => vc.id == v.id)
    (fun vc => { vc with continuation_key := some ("awaiting" ++ challenge) })
    db.votecodes
  { db with votecodes := vcs }

/-- Updating the matched row preserves later lookups: when `f` keeps `p`
true, the first `p`-match of the updated list is `f` of the original first
match. -/
theorem updateFirst_find? (p : α → Bool) (f : α → α)
    (hf : ∀ a, p a = true → p (f a) = true) (l : List α) :
    (updateFirst p f l).find? p = (l.find? p).map f := by
  induction l with
  | nil => rfl
  | cons a as ih =>
    cases h : p a with
    | true =>
      simp only [updateFirst, h, if_pos]
      rw [List.find?_cons_of_pos _ (hf a h), List.find?_cons_of_pos _ h, Option.map_some']
    | false =>
      simp only [updateFirst, h, Bool.false_eq_true, if_false]
      rw [List.find?_cons_of_neg _ (by simp [h]), List.find?_cons_of_neg _ (by simp [h]), ih]

/-- Pointwise monotonicity of the `used` flag between two table states. -/
def usedLe (l l' : List VoteCode) : Prop :=
  List.Forall₂ (fun a b => a.used = true → b.used = true) l l'

theorem usedLe_refl (l : List VoteCode) : usedLe l l := by
  induction l with
  | nil => exact List.Forall₂.nil
  | cons a as ih => exact List.Forall₂.cons (fun h => h) ih

theorem usedLe_updateFirst (p : VoteCode → Bool) (f : VoteCode → VoteCode)
    (hf : ∀ a, a.used = true → (f a).used = true) (l : List VoteCode) :
    usedLe l (updateFirst p f l) := by
  induction l with
  | nil => exact List.Forall₂.nil
  | cons a as ih =>
    cases h : p a with
    | true =>
      simp only [updateFirst, h, if_pos]
      exact List.Forall₂.cons (hf a) (usedLe_refl as)
    | false =>
      simp only [updateFirst, h, Bool.false_eq_true, if_false]
      exact List.Forall₂.cons (fun h' => h') ih

/-- Errors of the submit row loop are never `success`. -/
theorem buildRows_error_ne_success (vd : List (String × VoteSubmissionItem))
    (e : SubmitResult) (h : buildRows vd = .error e) : e ≠ .success := by
  induction vd with
  | nil => simp [buildRows] at h
  | cons p rest ih =>
    obtain ⟨tid, s⟩ := p
    simp only [buildRows] at h
    by_cases h1 : strIsDigit tid
    · simp only [h1, Bool.not_true, Bool.false_eq_true, if_false] at h
      by_cases h2 : s.overall = none
      · rw [show (s.overall == none) = true by simpa using h2] at h
        simp only [Bool.not_true, Bool.false_eq_true, if_false, if_pos] at h
        cases h; simp
      · simp only [beq_eq_false_iff_ne, ne_eq, h2, not_false_eq_true, Bool.not_eq_true,
          show (s.overall == none) = false by simpa using h2] at h
        cases hb : buildRows rest with
        | error e' => rw [hb] at h; cases h; exact ih hb
        | ok rs => rw [hb] at h; cases h
    · simp only [h1] at h
      simp at h1
      simp only [Bool.not_false, if_pos] at h
      cases h; simp

/-- A successful row loop means every key was a digit string and every
entry carried an `overall` rating. -/
theorem buildRows_ok_entries (vd : List (String × VoteSubmissionItem))
    (rows : List Votes) (h : buildRows vd = .ok rows) :
    ∀ p ∈ vd, strIsDigit p.1 = true ∧ p.2.overall ≠ none := by
  induction vd generalizing rows with
  | nil => intro p hp; cases hp
  | cons q rest ih =>
    obtain ⟨tid, s⟩ := q
    intro p hp
    simp only [buildRows] at h
    by_cases h1 : strIsDigit tid
    · rw [show (!strIsDigit tid) = false by simp [h1]] at h
      simp only [Bool.false_eq_true, if_false] at h
      by_cases h2 : s.overall = none
      · rw [show (s.overall == none) = true by simpa using h2] at h
        simp at h
      · rw [show (s.overall == none) = false by simpa using h2] at h
        simp only [Bool.false_eq_true, if_false] at h
        cases hb : buildRows rest with
        | error e => rw [hb] at h; cases h
        | ok rs =>
          rw [hb] at h
          cases hp with
          | head => exact ⟨h1, h2⟩
          | tail _ hmem => exact ih rs hb p hmem
    · rw [show (!strIsDigit tid) = true by simp [h1]] at h
      simp at h

/-- Every row the submit loop stages leaves `ip_address` unset. -/
theorem buildRows_ok_ip (vd : List (String × VoteSubmissionItem))
    (rows : List Votes) (h : buildRows vd = .ok rows) :
    ∀ r ∈ rows, r.ip_address = none := by
  induction vd generalizing rows with
  | nil =>
    simp only [buildRows] at h
    cases h
    intro r hr; cases hr
  | cons q rest ih =>
    obtain ⟨tid, s⟩ := q
    intro r hr
    simp only [buildRows] at h
    by_cases h1 : strIsDigit tid
    · rw [show (!strIsDigit tid) = false by simp [h1]] at h
      simp only [Bool.false_eq_true, if_false] at h
      by_cases h2 : s.overall = none
      · rw [show (s.overall == none) = true by simpa using h2] at h
        simp at h
      · rw [show (s.overall == none) = false by simpa using h2] at h
        simp only [Bool.false_eq_true, if_false] at h
        cases hb : buildRows rest with
        | error e => rw [hb] at h; cases h
        | ok rs =>
          rw [hb] at h
          cases h
          cases hr with
          | head => rfl
          | tail _ hmem => exact ih rs hb r hmem
    · rw [show (!strIsDigit tid) = true by simp [h1]] at h
      simp at h


/-- Total case analysis of `submit_vote`: either every guard passed and
the result is the atomic success commit (rows appended and `used` set in
one step), or the result is an error and the database is returned
untouched. -/
theorem submit_vote_cases (db : DB) (ch : String)
    (vd : List (String × VoteSubmissionItem)) :
    (∃ v rows, findChallengeCode db ch = some v ∧ v.used = false ∧ 3 ≤ ch.length ∧
      db.vote_locked = false ∧
      (validTeachers db (teacherIds vd)).length = (teacherIds vd).length ∧
      buildRows vd = .ok rows ∧
      submit_vote db ch vd = (.success, { db with
        votes := db.votes ++ rows,
        votecodes := updateFirst (chMatch ch) setUsed db.votecodes }))
    ∨ ((submit_vote db ch vd).1 ≠ .success ∧ (submit_vote db ch vd).2 = db) := by
  unfold submit_vote
  split
  · right; simp
  next v hf =>
    split
    next hguard => right; simp
    next hguard =>
      split
      next hlock => right; simp
      next hlock =>
        split
        next hlen => right; simp
        next hlen =>
          split
          next e hb => right; exact ⟨buildRows_error_ne_success vd e hb, rfl⟩
          next rows hb =>
            left
            have hg : v.used = false ∧ ¬ ch.length < 3 := by
              constructor
              · cases hu : v.used
                · rfl
                · exact absurd (by simp [hu]) hguard
              · intro hlt
                exact hguard (by simp [hlt])
            refine ⟨v, rows, hf, hg.1, by omega, ?_, by omega, hb, rfl⟩
            cases hl : db.vote_locked
            · rfl
            · exact absurd hl hlock

/-- Every non-success outcome of `submit_vote` leaves the database
untouched (nothing was committed before the error return). -/
theorem submit_vote_ne_success (db : DB) (ch : String)
    (vd : List (String × VoteSubmissionItem))
    (h : (submit_vote db ch vd).1 ≠ .success) : (submit_vote db ch vd).2 = db := by
  rcases submit_vote_cases db ch vd with ⟨v, rows, _, _, _, _, _, _, heq⟩ | ⟨_, h2⟩
  · rw [heq] at h; simp at h
  · exact h2

/-- Shape of a successful `submit_vote`. -/
theorem submit_vote_success (db : DB) (ch : String)
    (vd : List (String × VoteSubmissionItem))
    (h : (submit_vote db ch vd).1 = .success) :
    ∃ v rows, findChallengeCode db ch = some v ∧ v.used = false ∧ 3 ≤ ch.length ∧
      db.vote_locked = false ∧
      (validTeachers db (teacherIds vd)).length = (teacherIds vd).length ∧
      buildRows vd = .ok rows ∧
      submit_vote db ch vd = (.success, { db with
        votes := db.votes ++ rows,
        votecodes := updateFirst (chMatch ch) setUsed db.votecodes }) := by
  rcases submit_vote_cases db ch vd with hyes | ⟨hne, _⟩
  · exact hyes
  · exact absurd h hne

/-- Setting `used` does not change which rows the challenge lookup
matches. -/
theorem chMatch_setUsed (ch : String) (v : VoteCode) :
    chMatch ch (setUsed v) = chMatch ch v := rfl

/-- C1: the `used` flag of a vote code only ever moves false→true through
the voting flow.  After a successful submit with token `t` has set
`used=true`, every later submit presenting `t` (any payload) returns
`InvalidChallenge` with the database — in particular the `votes` table —
unchanged; and none of `verify_vote`, `verify_challenge`/`solve_vote` or
`submit_vote` ever resets a `used` flag to false (pointwise monotonicity
of `used` over the `votecodes` table). -/
theorem C1_used_flag_single_transition :
    (∀ db t vd db', submit_vote db t vd = (.success, db') →
      ∀ vd', submit_vote db' t vd' = (.invalidChallenge, db'))
    ∧ (∀ db code ch, usedLe db.votecodes ((verify_vote db code ch).2.1).votecodes)
    ∧ (∀ db ch aw cu, usedLe db.votecodes ((verify_challenge db ch aw cu).2.1).votecodes)
    ∧ (∀ db ch vd, usedLe db.votecodes ((submit_vote db ch vd).2).votecodes) := by
  refine ⟨?_, ?_, ?_, ?_⟩
  · intro db t vd db' hs vd'
    have h1 : (submit_vote db t vd).1 = .success := by rw [hs]
    obtain ⟨v, rows, hf, hu, hlen3, hlock, hvt, hb, heq⟩ := submit_vote_success db t vd h1
    have hx := hs.symm.trans heq
    have hdb' : db' = { db with
        votes := db.votes ++ rows,
        votecodes := updateFirst (chMatch t) setUsed db.votecodes } :=
      congrArg Prod.snd hx
    have hfind : findChallengeCode db' t = some (setUsed v) := by
      rw [hdb']
      show (updateFirst (chMatch t) setUsed db.votecodes).find? (chMatch t) = _
      rw [updateFirst_find? (chMatch t) setUsed (fun a h => by rw [chMatch_setUsed]; exact h)]
      rw [show db.votecodes.find? (chMatch t) = some v from hf]
      rfl
    unfold submit_vote
    rw [hfind]
    simp [setUsed]
  · intro db code ch
    unfold verify_vote
    split
    · exact usedLe_refl _
    next v hf =>
      split
      · exact usedLe_refl _
      · split
        · exact usedLe_refl _
        · exact usedLe_updateFirst (codeMatch code)
            (fun vc => { vc with continuation_key := some ("awaiting" ++ ch) })
            (fun a h => h) db.votecodes
  · intro db ch aw cu
    unfold verify_challenge
    split
    · exact usedLe_refl _
    · split
      · exact usedLe_refl _
      · split
        · exact usedLe_updateFirst (challengeCond ("awaiting" ++ ch) cu)
            (fun vc => { vc with continuation_key := some ch })
            (fun a h => h) db.votecodes
        · exact usedLe_refl _
  · intro db ch vd
    rcases submit_vote_cases db ch vd with ⟨v, rows, _, _, _, _, _, _, heq⟩ | ⟨_, h2⟩
    · rw [heq]
      exact usedLe_updateFirst _ _ (fun a _ => rfl) db.votecodes
    · rw [h2]
      exact usedLe_refl _

/-- Members of the valid-teacher set are ids of enabled teachers and
belong to the requested id list. -/
theorem validTeachers_mem (db : DB) (tids : List Nat) (x : Nat)
    (hx : x ∈ validTeachers db tids) :
    x ∈ tids ∧ ∃ t ∈ db.teachers, t.id = x ∧ t.disabled = false := by
  rcases List.mem_map.mp (List.mem_dedup.mp hx) with ⟨t, ht, rfl⟩
  rcases List.mem_filter.mp ht with ⟨htm, hcond⟩
  rcases Bool.and_eq_true .. |>.mp hcond with ⟨hc, hd⟩
  refine ⟨by simpa using hc, t, htm, rfl, by simpa using hd⟩

/-- If some requested id belongs to no enabled teacher, the Python check
`len(valid_teachers) != len(teacher_ids)` fires. -/
theorem validTeachers_length_ne (db : DB) (tids : List Nat) (n : Nat)
    (hn : n ∈ tids) (hno : ∀ t ∈ db.teachers, t.id = n → t.disabled = true) :
    (validTeachers db tids).length ≠ tids.length := by
  intro hlen
  have hnodup : (validTeachers db tids).Nodup := List.nodup_dedup _
  have hnmem : n ∉ validTeachers db tids := by
    intro hmem
    rcases validTeachers_mem db tids n hmem with ⟨-, t, htm, hid, hdis⟩
    rw [hno t htm hid] at hdis
    cases hdis
  have h1 : (validTeachers db tids).toFinset.card = (validTeachers db tids).length :=
    List.toFinset_card_of_nodup hnodup
  have h2 : (validTeachers db tids).toFinset ⊆ tids.toFinset := by
    intro x hx
    exact List.mem_toFinset.mpr (validTeachers_mem db tids x (List.mem_toFinset.mp hx)).1
  have h3 : tids.toFinset.card ≤ tids.length := List.toFinset_card_le tids
  have h4 : tids.toFinset = (validTeachers db tids).toFinset :=
    (Finset.eq_of_subset_of_card_le h2 (by omega)).symm
  exact hnmem (List.mem_toFinset.mp (h4 ▸ List.mem_toFinset.mpr hn))

/-- A digit key of the payload contributes its numeric id to
`teacher_ids`. -/
theorem mem_teacherIds (vd : List (String × VoteSubmissionItem)) (tid : String)
    (s : VoteSubmissionItem) (hmem : (tid, s) ∈ vd) (hdig : strIsDigit tid = true) :
    strToNat tid ∈ teacherIds vd := by
  apply List.mem_filterMap.mpr
  exact ⟨tid, List.mem_map.mpr ⟨(tid, s), hmem, rfl⟩, by rw [hdig]; rfl⟩

/-- Concrete all-none submission carrying only an overall rating of 7. -/
def subSeven : VoteSubmissionItem :=
  ⟨some 7, none, none, none, none, none, none, none, none, none⟩

/-- Concrete state: one solved (CHALLENGED) code with bearer token "tok",
one enabled teacher, voting open. -/
def dbOne : DB :=
  ⟨[⟨1, "ABCD1234", false, 5, none, some "tok", false⟩], [⟨1, false⟩], [],
   false, true, false⟩

/-- State after the successful submit against `dbOne`. -/
def dbOneUsed : DB := (submit_vote dbOne "tok" [("1", subSeven)]).2

theorem C1_witness :
    submit_vote dbOne "tok" [("1", subSeven)] = (.success, dbOneUsed) ∧
    submit_vote dbOneUsed "tok" [("1", subSeven)] = (.invalidChallenge, dbOneUsed) := by
  refine ⟨by decide, ?_⟩
  exact C1_used_flag_single_transition.1 dbOne "tok" [("1", subSeven)] dbOneUsed
    (by decide) [("1", subSeven)]

/-- C2: submit is all-or-nothing.  Any non-success outcome leaves the
database untouched (no `Vote` row written, the `VoteCode` — `used` flag
and continuation key included — unchanged); the `vote_locked` switch, a
digit key naming no enabled teacher, and an entry missing its `overall`
rating each force a non-success outcome; and on success the staged rows
and the `used=true` flip are committed together in one step. -/
theorem C2_submit_all_or_nothing :
    (∀ db ch vd, (submit_vote db ch vd).1 ≠ .success → (submit_vote db ch vd).2 = db)
    ∧ (∀ db ch vd, db.vote_locked = true → (submit_vote db ch vd).1 ≠ .success)
    ∧ (∀ db ch vd tid s, (tid, s) ∈ vd → strIsDigit tid = true →
        (∀ t ∈ db.teachers, t.id = strToNat tid → t.disabled = true) →
        (submit_vote db ch vd).1 ≠ .success)
    ∧ (∀ db ch vd tid s, (tid, s) ∈ vd → s.overall = none →
        (submit_vote db ch vd).1 ≠ .success)
    ∧ (∀ db ch vd db', submit_vote db ch vd = (.success, db') →
        ∃ rows, buildRows vd = .ok rows ∧
          db' = { db with
            votes := db.votes ++ rows,
            votecodes := updateFirst (chMatch ch) setUsed db.votecodes }) := by
  refine ⟨submit_vote_ne_success, ?_, ?_, ?_, ?_⟩
  · intro db ch vd hlock hsucc
    obtain ⟨v, rows, _, _, _, hl, _, _, _⟩ := submit_vote_success db ch vd hsucc
    rw [hlock] at hl
    cases hl
  · intro db ch vd tid s hmem hdig hno hsucc
    obtain ⟨v, rows, _, _, _, _, hlen, _, _⟩ := submit_vote_success db ch vd hsucc
    exact validTeachers_length_ne db (teacherIds vd) (strToNat tid)
      (mem_teacherIds vd tid s hmem hdig) hno hlen
  · intro db ch vd tid s hmem hov hsucc
    obtain ⟨v, rows, _, _, _, _, _, hb, _⟩ := submit_vote_success db ch vd hsucc
    exact (buildRows_ok_entries vd rows hb (tid, s) hmem).2 hov
  · intro db ch vd db' hs
    have h1 : (submit_vote db ch vd).1 = .success := by rw [hs]
    obtain ⟨v, rows, _, _, _, _, _, hb, heq⟩ := submit_vote_success db ch vd h1
    exact ⟨rows, hb, congrArg Prod.snd (hs.symm.trans heq)⟩

/-- Concrete state with the `vote_locked` switch enabled. -/
def dbLocked : DB :=
  ⟨[⟨1, "ABCD1234", false, 5, none, some "tok", false⟩], [⟨1, false⟩], [],
   true, false, false⟩

theorem C2_witness :
    dbLocked.vote_locked = true ∧
    (submit_vote dbLocked "tok" [("1", subSeven)]).1 ≠ .success ∧
    (submit_vote dbLocked "tok" [("1", subSeven)]).2 = dbLocked :=
  ⟨rfl, C2_submit_all_or_nothing.2.1 dbLocked "tok" [("1", subSeven)] rfl,
   C2_submit_all_or_nothing.1 dbLocked "tok" [("1", subSeven)]
     (C2_submit_all_or_nothing.2.1 dbLocked "tok" [("1", subSeven)] rfl)⟩

/-- The solve-time row condition (`check_used = false`) holds exactly for
a matching continuation key on a non-disabled code. -/
theorem challengeCond_false_iff (k : String) (v : VoteCode) :
    challengeCond k false v = true ↔
      v.continuation_key = some k ∧ v.disabled = false := by
  unfold challengeCond
  cases v.disabled <;> cases v.used <;> simp

/-- C3: `solve(token)` succeeds exactly when the token has length at
least 3 and some non-disabled code's continuation key equals
`"awaiting" + token`; on success only that first matching row changes,
its key rewritten to the bare token, and no failure is recorded; on any
failure nothing changes and a failure is recorded for the caller. -/
theorem C3_solve_characterization :
    ∀ db ch,
      ((solve_vote db ch).1 = true ↔
        3 ≤ ch.length ∧ ∃ v ∈ db.votecodes,
          v.continuation_key = some ("awaiting" ++ ch) ∧ v.disabled = false)
      ∧ ((solve_vote db ch).1 = true →
          (solve_vote db ch).2.1 = { db with
            votecodes :=
              updateFirst (challengeCond ("awaiting" ++ ch) false)
                (fun vc => { vc with continuation_key := some ch }) db.votecodes }
          ∧ (solve_vote db ch).2.2 = false)
      ∧ ((solve_vote db ch).1 = false →
          (solve_vote db ch).2.1 = db ∧ (solve_vote db ch).2.2 = true) := by
  intro db ch
  unfold solve_vote verify_challenge
  by_cases hlen : ch.length < 3
  · rw [if_pos hlen]
    refine ⟨?_, ?_, ?_⟩
    · simp only [Bool.false_eq_true, false_iff]
      intro hcontra
      rcases hcontra with ⟨h3, -⟩
      omega
    · intro h; cases h
    · intro h; exact ⟨rfl, rfl⟩
  · rw [if_neg hlen]
    rw [show (if true then "awaiting" ++ ch else ch) = "awaiting" ++ ch from rfl]
    cases hfind : db.votecodes.find? (challengeCond ("awaiting" ++ ch) false) with
    | none =>
      refine ⟨?_, ?_, ?_⟩
      · simp only [Bool.false_eq_true, false_iff]
        intro hcontra
        rcases hcontra with ⟨-, v, hv, hck, hdis⟩
        have := List.find?_eq_none.mp hfind v hv
        exact this ((challengeCond_false_iff ("awaiting" ++ ch) v).mpr ⟨hck, hdis⟩)
      · intro h; cases h
      · intro h; exact ⟨rfl, rfl⟩
    | some v =>
      rw [if_pos rfl]
      refine ⟨?_, ?_, ?_⟩
      · simp only [true_iff]
        refine ⟨by omega, v, List.mem_of_find?_eq_some hfind, ?_⟩
        exact (challengeCond_false_iff ("awaiting" ++ ch) v).mp (List.find?_some hfind)
      · intro _; exact ⟨rfl, rfl⟩
      · intro h; cases h

/-- Concrete state with one AWAITING code whose stored key is
`"awaiting" + "tok"`. -/
def dbAwaiting : DB :=
  ⟨[⟨1, "ABCD1234", false, 5, none, some "awaitingtok", false⟩], [], [],
   false, false, false⟩

theorem C3_witness :
    (solve_vote dbAwaiting "tok").1 = true ∧
    (solve_vote dbAwaiting "tok").2.1.votecodes =
      [⟨1, "ABCD1234", false, 5, none, some "tok", false⟩] ∧
    (solve_vote dbAwaiting "tok").2.2 = false := by
  have h := (C3_solve_characterization dbAwaiting "tok").2.1 (by decide)
  exact ⟨by decide, by rw [h.1]; decide, h.2⟩

/-- Concrete state: one already-used, non-disabled code. -/
def dbUsedCode : DB :=
  ⟨[⟨1, "USED1234", true, 5, none, none, false⟩], [], [], false, false, false⟩

/-- C4 counterexample: presenting a used code yields the CodeAlreadyUsed
outcome but `register_failed_ip` is NOT called on that path (vote.py
lines 102-104 log and return without recording), refuting "every one of
these error paths also calls AbuseGuard.recordFailure". -/
theorem C4_counterexample :
    (verify_vote dbUsedCode "USED1234" "freshtoken32").1 = .codeAlreadyUsed ∧
    (verify_vote dbUsedCode "USED1234" "freshtoken32").2.2 = false := by decide

/-- C4 (amended): `verify_vote` distinguishes exactly the three error
outcomes — unknown/disabled code ↦ InvalidCode, used code ↦
CodeAlreadyUsed, continuation key present without the "awaiting" prefix ↦
CodeAlreadyVerified — and `register_failed_ip` is called exactly on the
InvalidCode and CodeAlreadyVerified paths, not on the CodeAlreadyUsed
path. -/
theorem C4_verify_error_kinds :
    ∀ db code ch,
      ((verify_vote db code ch).1 = .invalidCode ↔
        db.votecodes.find? (codeMatch code) = none)
      ∧ ((verify_vote db code ch).1 = .codeAlreadyUsed ↔
        ∃ v, db.votecodes.find? (codeMatch code) = some v ∧ v.used = true)
      ∧ ((verify_vote db code ch).1 = .codeAlreadyVerified ↔
        ∃ v, db.votecodes.find? (codeMatch code) = some v ∧ v.used = false ∧
          ckPresentWithoutAwaiting v = true)
      ∧ ((verify_vote db code ch).2.2 = true ↔
        ((verify_vote db code ch).1 = .invalidCode ∨
         (verify_vote db code ch).1 = .codeAlreadyVerified)) := by
  intro db code ch
  unfold verify_vote
  cases hfind : db.votecodes.find? (codeMatch code) with
  | none => simp
  | some v =>
    cases hu : v.used with
    | true => simp [hu]
    | false =>
      cases hck : ckPresentWithoutAwaiting v with
      | true => simp [hu, hck]
      | false => simp [hu, hck]

/-- Abuse record with no history. -/
def abuseEmpty : AbuseState := ⟨[], 0, none⟩

/-- C5 counterexample: ten failures at time 0 ban the address until
172800.  Nine further failures at time 1 leave the address banned; the
next failure — the 20th, made while still banned — returns `True` again
and moves the ban expiry from 172800 to 172801, refuting "only that
[10th] call returns true" and "further recordFailure calls while banned
do not move the ban expiry". -/
theorem C5_counterexample :
    (regIter 0 10 abuseEmpty).ban = some 172800 ∧
    (is_ip_banned (regIter 1 9 (regIter 0 10 abuseEmpty)) 1).1.1 = true ∧
    (register_failed_ip (regIter 1 9 (regIter 0 10 abuseEmpty)) 1).1 = true ∧
    (register_failed_ip (regIter 1 9 (regIter 0 10 abuseEmpty)) 1).2.ban
      = some 172801 := by decide

/-- C5 (amended): one `register_failed_ip` call returns `True` exactly
when the retained failure count (including this call) reaches the
threshold of 10; such a call sets the ban expiry to `now + 48h` and
clears the failure list — so each group of ten retained failures bans or
re-bans, moving the expiry, while the calls in between (in particular the
11th-19th while banned) leave the ban expiry untouched.  `is_ip_banned`
returns `(True, expiry - now)` while the ban is live, and once the expiry
passes it lazily deletes the record and returns `(False, None)`. -/
theorem C5_abuse_guard_steps :
    ∀ st now,
      ((register_failed_ip st now).1 = true ↔
        maxFailedAttempts ≤ (liveFailures st now).length + 1)
      ∧ ((register_failed_ip st now).1 = true →
          (register_failed_ip st now).2 =
            ⟨[], now + banDurationSecs, some (now + banDurationSecs)⟩)
      ∧ ((register_failed_ip st now).1 = false →
          (register_failed_ip st now).2 =
            ⟨liveFailures st now ++ [now], now + banDurationSecs, st.ban⟩)
      ∧ (∀ b, st.ban = some b → now < b →
          is_ip_banned st now = ((true, some (b - now)), st))
      ∧ (∀ b, st.ban = some b → b ≤ now →
          is_ip_banned st now = ((false, none), { st with ban := none }))
      ∧ (st.ban = none → is_ip_banned st now = ((false, none), st)) := by
  intro st now
  have hlen : (liveFailures st now ++ [now]).length = (liveFailures st now).length + 1 := by
    simp
  refine ⟨?_, ?_, ?_, ?_, ?_, ?_⟩
  · unfold register_failed_ip
    by_cases h : maxFailedAttempts ≤ (liveFailures st now ++ [now]).length
    · rw [if_pos h]
      rw [hlen] at h
      simpa using h
    · rw [if_neg h]
      rw [hlen] at h
      simpa using h
  · unfold register_failed_ip
    by_cases h : maxFailedAttempts ≤ (liveFailures st now ++ [now]).length
    · rw [if_pos h]; intro _; rfl
    · rw [if_neg h]; intro hc; cases hc
  · unfold register_failed_ip
    by_cases h : maxFailedAttempts ≤ (liveFailures st now ++ [now]).length
    · rw [if_pos h]; intro hc; cases hc
    · rw [if_neg h]; intro _; rfl
  · intro b hb hlt
    unfold is_ip_banned
    simp only [hb]
    rw [if_pos hlt]
  · intro b hb hge
    unfold is_ip_banned
    simp only [hb]
    rw [if_neg (by omega)]
  · intro hb
    unfold is_ip_banned
    simp only [hb]

theorem C5_witness :
    is_ip_banned ⟨[], 0, some 10⟩ 3 = ((true, some 7), ⟨[], 0, some 10⟩) ∧
    register_failed_ip abuseEmpty 5 =
      (false, ⟨[5], 5 + banDurationSecs, none⟩) := by
  constructor
  · exact (C5_abuse_guard_steps ⟨[], 0, some 10⟩ 3).2.2.2.1 10 rfl (by omega)
  · have h := (C5_abuse_guard_steps abuseEmpty 5).2.2.1 (by decide)
    exact Prod.ext (by decide) h

/-- C6 counterexample: in `dbOne` the token "tok" resolves to a solved
(CHALLENGED), unused, non-disabled code and `vote_public` is enabled, yet
`get_vote_outcome` answers `notVoted` ("Vote first to see results", 412)
because the code is not used and `vote_locked` is disabled — refuting
"succeeds for a token that resolves to a solved (CHALLENGED) or used,
non-disabled VoteCode". -/
theorem C6_counterexample :
    findChallengeCode dbOne "tok" =
      some ⟨1, "ABCD1234", false, 5, none, some "tok", false⟩ ∧
    dbOne.vote_public = true ∧ dbOne.vote_public_tokenless = false ∧
    (get_vote_outcome dbOne 1 "tok").1 = .notVoted := by decide

/-- C6 (amended): with the tokenless switch enabled the token gate is
bypassed entirely; otherwise the token must resolve to a non-disabled
code (else InvalidChallenge with a recorded failure, also for empty or
shorter-than-3 tokens), and the resolved code must be used OR the
`vote_locked` switch enabled — a merely-solved code while voting is open
gets `notVoted`.  Past the gate, `vote_public` disabled yields
`NotYetPublic` and no aggregates; with it enabled the result is never
`NotYetPublic`. -/
theorem C6_outcome_gate :
    ∀ db tid ch,
      (db.vote_public_tokenless = true →
        get_vote_outcome db tid ch = outcomeAfterGate db tid)
      ∧ (db.vote_public_tokenless = false → findChallengeCode db ch = none →
        get_vote_outcome db tid ch = (.invalidChallenge, db, true))
      ∧ (∀ v, db.vote_public_tokenless = false → findChallengeCode db ch = some v →
          (ch == "" || decide (ch.length < 3)) = true →
          get_vote_outcome db tid ch = (.invalidChallenge, db, true))
      ∧ (∀ v, db.vote_public_tokenless = false → findChallengeCode db ch = some v →
          (ch == "" || decide (ch.length < 3)) = false →
          v.used = false → db.vote_locked = false →
          get_vote_outcome db tid ch = (.notVoted, db, false))
      ∧ (∀ v, db.vote_public_tokenless = false → findChallengeCode db ch = some v →
          (ch == "" || decide (ch.length < 3)) = false →
          (v.used = true ∨ db.vote_locked = true) →
          get_vote_outcome db tid ch = outcomeAfterGate db tid)
      ∧ (db.vote_public = false →
          outcomeAfterGate db tid = (.notYetPublic, db, false))
      ∧ (db.vote_public = true → (outcomeAfterGate db tid).1 ≠ .notYetPublic) := by
  intro db tid ch
  refine ⟨?_, ?_, ?_, ?_, ?_, ?_, ?_⟩
  · intro ht
    unfold get_vote_outcome
    rw [ht]
    rfl
  · intro ht hf
    unfold get_vote_outcome
    rw [ht]
    simp only [hf]
    rfl
  · intro v ht hf hshort
    unfold get_vote_outcome
    rw [ht]
    simp only [hf, hshort]
    rfl
  · intro v ht hf hshort hu hl
    unfold get_vote_outcome
    rw [ht]
    simp only [hf, hshort, hu, hl]
    rfl
  · intro v ht hf hshort hor
    unfold get_vote_outcome
    rw [ht]
    simp only [hf, hshort]
    rcases hor with hu | hl
    · simp only [hu]
      rfl
    · have hcond : (!v.used && !db.vote_locked) = false := by rw [hl]; simp
      rw [hcond]
      simp
  · intro hp
    unfold outcomeAfterGate
    rw [hp]
    rfl
  · intro hp
    unfold outcomeAfterGate
    rw [hp]
    cases db.teachers.find? (fun t => t.id == tid && !t.disabled) <;> simp

theorem C6_witness :
    get_vote_outcome dbOneUsed 1 "tok" = outcomeAfterGate dbOneUsed 1 :=
  (C6_outcome_gate dbOneUsed 1 "tok").2.2.2.2.1
    ⟨1, "ABCD1234", true, 5, none, some "tok", false⟩ (by decide) (by decide)
    (by decide) (Or.inl rfl)

/-- Generated codes have exactly 8 characters. -/
theorem genCode_length (picks : List Nat) : (genCode picks).length = 8 := by
  unfold genCode
  show ((List.range 8).map _).length = 8
  rw [List.length_map, List.length_range]

/-- Every character of a generated code comes from the alphanumeric
alphabet. -/
theorem genCode_mem_alphabet (picks : List Nat) :
    ∀ c ∈ (genCode picks).data, c ∈ codeAlphabet := by
  intro c hc
  unfold genCode at hc
  rcases List.mem_map.mp hc with ⟨j, hj, rfl⟩
  have h62 : picks.getD j 0 % 62 < codeAlphabet.length :=
    Nat.lt_of_lt_of_le (Nat.mod_lt _ (by omega)) (by decide)
  rw [List.getD_eq_getElem codeAlphabet 'a' h62]
  exact List.getElem_mem h62

/-- A code accepted by the fresh-code retry loop is a generated code. -/
theorem pickFreshCode_genCode (existing : List String) (fuel : Nat)
    (picks : List (List Nat)) (c : String) (rest : List (List Nat))
    (h : pickFreshCode existing fuel picks = some (c, rest)) :
    ∃ p, c = genCode p := by
  induction fuel generalizing picks with
  | zero => cases h
  | succ fuel ih =>
    cases picks with
    | nil => cases h
    | cons p ps =>
      unfold pickFreshCode at h
      by_cases hex : existing.contains (genCode p)
      · rw [if_pos hex] at h
        exact ih ps h
      · rw [if_neg hex] at h
        cases h
        exact ⟨p, rfl⟩

/-- Every code produced by the `add_votecodes` generation loop is a
generated code. -/
theorem genCodes_mem (n : Nat) :
    ∀ existing picks cs, genCodes existing n picks = some cs →
      ∀ c ∈ cs, ∃ p, c = genCode p := by
  induction n with
  | zero =>
    intro existing picks cs h c hc
    unfold genCodes at h
    cases h
    cases hc
  | succ n ih =>
    intro existing picks cs h c hc
    unfold genCodes at h
    cases hp : pickFreshCode existing picks.length picks with
    | none => rw [hp] at h; cases h
    | some pr =>
      obtain ⟨c', rest⟩ := pr
      rw [hp] at h
      dsimp only at h
      cases hg : genCodes (existing ++ [c']) n rest with
      | none => rw [hg] at h; cases h
      | some cs' =>
        rw [hg] at h
        cases h
        cases hc with
        | head => exact pickFreshCode_genCode existing picks.length picks c rest hp
        | tail _ hmem => exact ih (existing ++ [c']) rest cs' hg c hmem

/-- Shape of every code the CSV row loop stages: either it is one of the
provided custom codes of the file and passed the minimum-4 length check,
or it is a generated replacement of exactly 8 characters from the
alphanumeric alphabet. -/
theorem uploadRows_code_shape (rows : List CsvRow) :
    ∀ existing gen picks cs, uploadRows existing gen picks rows = .ok cs →
      ∀ c ∈ cs, (c ∈ rows.map CsvRow.code ∧ 4 ≤ c.length) ∨
        (c.length = 8 ∧ ∀ ch ∈ c.data, ch ∈ codeAlphabet) := by
  induction rows with
  | nil =>
    intro existing gen picks cs h c hc
    unfold uploadRows at h
    cases h
    cases hc
  | cons row rest ih =>
    intro existing gen picks cs h c hc
    unfold uploadRows at h
    by_cases h1 : ((row.code == "" && !gen) || row.grade == "") = true
    · rw [if_pos h1] at h; cases h
    · rw [if_neg h1] at h
      by_cases h2 : (!strIsDigit row.grade
          || !(decide (0 < strToNat row.grade) && decide (strToNat row.grade ≤ 12))) = true
      · rw [if_pos h2] at h; cases h
      · rw [if_neg h2] at h
        by_cases h3 : (!(row.gender == "")
            && !(["TRUE", "FALSE", "0", "1"].contains (strUpper row.gender))) = true
        · rw [if_pos h3] at h; cases h
        · rw [if_neg h3] at h
          by_cases h4 : (!(gen && row.code == "") && decide (row.code.length < 4)) = true
          · rw [if_pos h4] at h; cases h
          · rw [if_neg h4] at h
            by_cases h5 : ((existing.contains row.code || row.code == "") && !gen) = true
            · rw [if_pos h5] at h; cases h
            · rw [if_neg h5] at h
              by_cases h6 : (existing.contains row.code || row.code == "") = true
              · rw [if_pos h6] at h
                cases hp : pickFreshCode existing 30 picks with
                | none => rw [hp] at h; cases h
                | some pr =>
                  obtain ⟨c', rest'⟩ := pr
                  rw [hp] at h
                  dsimp only at h
                  cases hrec : uploadRows (existing ++ [c']) gen rest' rest with
                  | ok cs2 =>
                    rw [hrec] at h
                    cases h
                    cases hc with
                    | head =>
                      obtain ⟨p, rfl⟩ :=
                        pickFreshCode_genCode existing 30 picks c rest' hp
                      exact Or.inr ⟨genCode_length p, genCode_mem_alphabet p⟩
                    | tail _ hmem =>
                      rcases ih (existing ++ [c']) gen rest' cs2 hrec c hmem with ⟨hm, hl⟩ | hgen
                      · exact Or.inl ⟨List.mem_cons_of_mem row.code hm, hl⟩
                      · exact Or.inr hgen
                  | emptyField => rw [hrec] at h; cases h
                  | badGrade => rw [hrec] at h; cases h
                  | badGender => rw [hrec] at h; cases h
                  | shortCode => rw [hrec] at h; cases h
                  | duplicate c0 => rw [hrec] at h; cases h
                  | genFailed => rw [hrec] at h; cases h
              · rw [if_neg h6] at h
                cases hrec : uploadRows (existing ++ [row.code]) gen picks rest with
                | ok cs2 =>
                  rw [hrec] at h
                  cases h
                  cases hc with
                  | head =>
                    have hne : (row.code == "") = false := by
                      cases hcq : (row.code == "")
                      · rfl
                      · exact absurd (by rw [hcq]; simp) h6
                    have hd4 : (decide (row.code.length < 4)) = false := by
                      cases hd : decide (row.code.length < 4)
                      · rfl
                      · exact absurd (by rw [hd, hne]; simp) h4
                    have hlen := of_decide_eq_false hd4
                    exact Or.inl ⟨List.mem_map.mpr ⟨row, List.mem_cons_self row rest, rfl⟩,
                      by omega⟩
                  | tail _ hmem =>
                    rcases ih (existing ++ [row.code]) gen picks cs2 hrec c hmem with ⟨hm, hl⟩ | hgen
                    · exact Or.inl ⟨List.mem_cons_of_mem row.code hm, hl⟩
                    · exact Or.inr hgen
                | emptyField => rw [hrec] at h; cases h
                | badGrade => rw [hrec] at h; cases h
                | badGender => rw [hrec] at h; cases h
                | shortCode => rw [hrec] at h; cases h
                | duplicate c0 => rw [hrec] at h; cases h
                | genFailed => rw [hrec] at h; cases h

/-- C7 counterexample: `add_votecodes` accepts the custom code "ab" of
length 2 — no minimum-length check exists on that admin path (only the
CSV import enforces the minimum of 4), refuting "a custom code shorter
than 4 characters is rejected on every admin path". -/
theorem C7_counterexample :
    add_votecodes [] 1 0 (some "ab") [] = .ok ["ab"] ∧
    ("ab" : String).length < 4 := by decide

/-- C7 (amended): codes generated by `add_votecodes` are exactly 8
characters over `[A-Za-z0-9]`; every code accepted by the CSV import is
either one of the file's provided custom codes, of length at least 4
(the minimum-4 check), or a generated replacement of exactly 8
characters over `[A-Za-z0-9]`; but a custom code given to
`add_votecodes` is accepted whenever it is non-empty, with no
minimum-length check. -/
theorem C7_code_acceptance :
    (∀ existing amount grade picks cs,
      add_votecodes existing amount grade none picks = .ok cs →
      ∀ c ∈ cs, c.length = 8 ∧ ∀ ch ∈ c.data, ch ∈ codeAlphabet)
    ∧ (∀ existing grade s, 0 ≤ grade → grade ≤ 12 → s ≠ "" →
        add_votecodes existing 1 grade (some s) [] = .ok [s])
    ∧ (∀ existing gen picks rows cs,
        uploadRows existing gen picks rows = .ok cs →
        ∀ c ∈ cs, (c ∈ rows.map CsvRow.code ∧ 4 ≤ c.length) ∨
          (c.length = 8 ∧ ∀ ch ∈ c.data, ch ∈ codeAlphabet)) := by
  refine ⟨?_, ?_, ?_⟩
  · intro existing amount grade picks cs h c hc
    unfold add_votecodes at h
    by_cases h1 : (decide (amount ≤ 0) || decide (1000 < amount)) = true
    · rw [if_pos h1] at h; cases h
    · rw [if_neg h1] at h
      by_cases h2 : (decide (grade < 0) || decide (12 < grade)) = true
      · rw [if_pos h2] at h; cases h
      · rw [if_neg h2] at h
        simp only [codeTruthy, Bool.false_and, Bool.false_eq_true, if_false] at h
        cases hg : genCodes existing amount.toNat picks with
        | none => rw [hg] at h; cases h
        | some cs' =>
          rw [hg] at h
          cases h
          obtain ⟨p, rfl⟩ := genCodes_mem amount.toNat existing picks _ hg c hc
          exact ⟨genCode_length p, genCode_mem_alphabet p⟩
  · intro existing grade s h0 h12 hs
    unfold add_votecodes
    rw [if_neg (by decide)]
    rw [if_neg (by simp only [Bool.or_eq_true, decide_eq_true_eq]; omega)]
    rw [if_neg (by simp)]
    rw [if_pos (by simp [codeTruthy, hs])]
    rfl
  · intro existing gen picks rows cs h c hc
    exact uploadRows_code_shape rows existing gen picks cs h c hc

theorem C7_witness :
    add_votecodes [] 1 0 (some "abcd") [] = .ok ["abcd"] :=
  C7_code_acceptance.2.1 [] 0 "abcd" (by decide) (by decide) (by decide)

/-- Concrete pre-state for the race: one ISSUED code. -/
def dbIssued : DB :=
  ⟨[⟨1, "ABCD1234", false, 5, none, none, false⟩], [], [], false, false, false⟩

/-- The row snapshot both racing verify handlers read. -/
def raceSnapshot : VoteCode := ⟨1, "ABCD1234", false, 5, none, none, false⟩

/-- State after the interleaving read A, read B, write A("tokenAAA"),
write B("tokenBBB") of two verify calls on the same code. -/
def dbAfterRace : DB :=
  verifyWrite (verifyWrite dbIssued raceSnapshot "tokenAAA") raceSnapshot "tokenBBB"

/-- C8: the `verify` commit is a blind `UPDATE ... WHERE id = ?` after a
separate read, not a compare-and-set on the key's previous value.  Under
the interleaving read A, read B, write A, write B on the same ISSUED
code, both verify calls pass every check (each caller is sent its own
token) yet only B's token ends up stored: A's token can never solve,
B's can.  The in-order half does hold: a solve racing ahead of its
verify's commit finds no match and fails. -/
theorem C8_verify_race :
    verifyRead dbIssued "ABCD1234" = some raceSnapshot ∧
    dbAfterRace.votecodes =
      [⟨1, "ABCD1234", false, 5, none, some ("awaiting" ++ "tokenBBB"), false⟩] ∧
    (solve_vote dbAfterRace "tokenAAA").1 = false ∧
    (solve_vote dbAfterRace "tokenBBB").1 = true ∧
    (solve_vote dbIssued "tokenAAA").1 = false := by decide

/-- C9: no Vote row written by the voting flow carries the caller's
address — the submit loop builds each row from `teacher_id` and the
rating fields only, leaving `ip_address` at its null default; hence every
row in the table after a submit either predates the call or has
`ip_address = none`. -/
theorem C9_votes_never_store_ip :
    (∀ vd rows, buildRows vd = .ok rows → ∀ r ∈ rows, r.ip_address = none)
    ∧ (∀ db ch vd r, r ∈ (submit_vote db ch vd).2.votes →
        r ∈ db.votes ∨ r.ip_address = none) := by
  constructor
  · exact buildRows_ok_ip
  · intro db ch vd r hr
    rcases submit_vote_cases db ch vd with ⟨v, rows, _, _, _, _, _, hb, heq⟩ | ⟨_, h2⟩
    · rw [heq] at hr
      rcases List.mem_append.mp hr with hmem | hmem
      · exact Or.inl hmem
      · exact Or.inr (buildRows_ok_ip vd rows hb r hmem)
    · rw [h2] at hr
      exact Or.inl hr

theorem C9_witness : (buildRow 1 subSeven).ip_address = none :=
  C9_votes_never_store_ip.1 [("1", subSeven)] [buildRow 1 subSeven] rfl
    (buildRow 1 subSeven) (by decide)

/-- C10: failures are recorded against the direct peer address
(`request.client.host`) while the ban middleware keys on the
`X-Forwarded-For` header whenever it is present and non-empty; so for a
banned peer address, a request carrying a different (unbanned) header
value passes the middleware unblocked. -/
theorem C10_ban_key_mismatch :
    ∀ (states : String → AbuseState) (now : Nat) (req : HttpRequest)
      (s : String) (e : Nat),
      req.xForwardedFor = some s → s ≠ "" →
      (states s).ban = none →
      (states req.clientHost).ban = some e → now < e →
      failureKey req = req.clientHost ∧
      (is_ip_banned (states req.clientHost) now).1.1 = true ∧
      middlewareBanKey req = s ∧
      banMiddlewareBlocks states now req = false := by
  intro states now req s e hx hs hbs hbc hlt
  have hkey : middlewareBanKey req = s := by
    unfold middlewareBanKey
    simp only [hx]
    rw [if_neg (by simpa using hs)]
  refine ⟨rfl, ?_, hkey, ?_⟩
  · unfold is_ip_banned
    simp only [hbc]
    rw [if_pos hlt]
  · unfold banMiddlewareBlocks
    rw [hkey]
    unfold is_ip_banned
    simp only [hbs]

/-- Per-address store: the peer 1.2.3.4 is banned, nothing else is. -/
def banStates : String → AbuseState :=
  fun a => if a = "1.2.3.4" then ⟨[], 0, some 100⟩ else ⟨[], 0, none⟩

theorem C10_witness :
    failureKey ⟨"1.2.3.4", some "5.6.7.8"⟩ = "1.2.3.4" ∧
    (is_ip_banned (banStates "1.2.3.4") 0).1.1 = true ∧
    middlewareBanKey ⟨"1.2.3.4", some "5.6.7.8"⟩ = "5.6.7.8" ∧
    banMiddlewareBlocks banStates 0 ⟨"1.2.3.4", some "5.6.7.8"⟩ = false :=
  C10_ban_key_mismatch banStates 0 ⟨"1.2.3.4", some "5.6.7.8"⟩ "5.6.7.8" 100
    rfl (by decide) (by decide) (by decide) (by decide)
